import Mathlib

/-!
Formal model of the memory-game core: the `GameState`, `Card` and `Board`
components (`game-state.ts`, `card.ts`, `board.ts`), the pair generator
(`random.ts`) and the per-tick engine (`game-logic-system.ts`).

Modelling conventions:
* machine numbers are `Int` (counters, ids, integer phase codes) and `Rat`
  (timestamps, coordinates, sizes), with JavaScript's `Math.floor` as the
  integer floor and its truncating `%` as `jsMod`;
* the partial update records (`Partial<GameState>`, `Partial<Card>`) are
  structures of `Option` fields; `applyUpdate` is `Object.assign` under the
  null-means-no-change convention;
* the ambient clock `performance.now()` is an explicit `now` argument;
* a card entity is identified by its position in the entity list (object
  identity of the TS array elements); its Becsy entity id is the `id` field
  of its `Card` component, as the board initializer creates them;
* `Math.random` is an injected draw stream: `draw i` stands for
  `Math.floor(Math.random() * (i + 1))`, reduced `% (i + 1)` so that every
  stream denotes a valid sequence of draws.
-/

namespace MemoGame

/-- The phases of `GamePhase` in game-state.ts. -/
inductive GamePhase where
  | INITIALIZING
  | READY
  | PLAYING
  | PAUSED
  | GAME_OVER
deriving DecidableEq

/-- The numeric phase codes of `GamePhaseValue`. -/
def GamePhaseValue : GamePhase → Int
  | .INITIALIZING => 0
  | .READY => 1
  | .PLAYING => 2
  | .PAUSED => 3
  | .GAME_OVER => 4

/-- `getPhaseFromValue`: the inverse table, defaulting to INITIALIZING. -/
def getPhaseFromValue (value : Int) : GamePhase :=
  if value = 0 then .INITIALIZING
  else if value = 1 then .READY
  else if value = 2 then .PLAYING
  else if value = 3 then .PAUSED
  else if value = 4 then .GAME_OVER
  else .INITIALIZING

/-- The `GameState` component. -/
structure GameState where
  moveCount : Int
  matchCount : Int
  totalPairs : Int
  elapsedTime : Rat
  startTime : Rat
  phase : Int
  firstSelectedCardEntityId : Int
  secondSelectedCardEntityId : Int
  lastMoveTime : Rat
  score : Int
deriving DecidableEq

/-- `Partial<GameState>`: the nullable-field update record returned by the
pure transition functions. -/
structure GameStateUpdate where
  moveCount : Option Int := none
  matchCount : Option Int := none
  totalPairs : Option Int := none
  elapsedTime : Option Rat := none
  startTime : Option Rat := none
  phase : Option Int := none
  firstSelectedCardEntityId : Option Int := none
  secondSelectedCardEntityId : Option Int := none
  lastMoveTime : Option Rat := none
  score : Option Int := none
deriving DecidableEq

/-- `GameState.applyUpdate` on a non-null update: `Object.assign` keeps every
field the partial record does not carry. -/
def applyUpdate (s : GameState) (u : GameStateUpdate) : GameState where
  moveCount := u.moveCount.getD s.moveCount
  matchCount := u.matchCount.getD s.matchCount
  totalPairs := u.totalPairs.getD s.totalPairs
  elapsedTime := u.elapsedTime.getD s.elapsedTime
  startTime := u.startTime.getD s.startTime
  phase := u.phase.getD s.phase
  firstSelectedCardEntityId := u.firstSelectedCardEntityId.getD s.firstSelectedCardEntityId
  secondSelectedCardEntityId := u.secondSelectedCardEntityId.getD s.secondSelectedCardEntityId
  lastMoveTime := u.lastMoveTime.getD s.lastMoveTime
  score := u.score.getD s.score

/-- `GameState.applyUpdate` including the null (no change) case. -/
def applyUpdateOpt (s : GameState) (u : Option GameStateUpdate) : GameState :=
  match u with
  | some u => applyUpdate s u
  | none => s

/-- The `Card` component.  The opaque `texture` render handle is omitted: no
game-logic function reads or writes it. -/
structure Card where
  id : Int
  value : Int
  x : Rat
  y : Rat
  width : Rat
  height : Rat
  isFlipped : Bool
  isMatched : Bool
  flipProgress : Rat
deriving DecidableEq

/-- `Partial<Card>`. -/
structure CardUpdate where
  id : Option Int := none
  value : Option Int := none
  x : Option Rat := none
  y : Option Rat := none
  width : Option Rat := none
  height : Option Rat := none
  isFlipped : Option Bool := none
  isMatched : Option Bool := none
  flipProgress : Option Rat := none
deriving DecidableEq

/-- `Card.applyUpdate` on a non-null update. -/
def applyCardUpdate (c : Card) (u : CardUpdate) : Card where
  id := u.id.getD c.id
  value := u.value.getD c.value
  x := u.x.getD c.x
  y := u.y.getD c.y
  width := u.width.getD c.width
  height := u.height.getD c.height
  isFlipped := u.isFlipped.getD c.isFlipped
  isMatched := u.isMatched.getD c.isMatched
  flipProgress := u.flipProgress.getD c.flipProgress

/-- `Card.applyUpdate` including the null case. -/
def applyCardUpdateOpt (c : Card) (u : Option CardUpdate) : Card :=
  match u with
  | some u => applyCardUpdate c u
  | none => c

/-- `flipCard` in card.ts: toggle, resetting the animation progress to the
start of the new direction. -/
def flipCard (card : Card) : CardUpdate :=
  let isFlipped := !card.isFlipped
  { isFlipped := some isFlipped, flipProgress := some (if isFlipped then 0 else 1) }

/-- `matchCard` in card.ts: null when the card is already matched. -/
def matchCard (card : Card) : Option CardUpdate :=
  if card.isMatched then none else some { isMatched := some true }

/-- `initializeGame` in game-state.ts. -/
def initializeGame (_state : GameState) (totalPairs : Int) : GameStateUpdate where
  moveCount := some 0
  matchCount := some 0
  totalPairs := some totalPairs
  elapsedTime := some 0
  startTime := some 0
  phase := some (GamePhaseValue .INITIALIZING)
  firstSelectedCardEntityId := some (-1)
  secondSelectedCardEntityId := some (-1)
  lastMoveTime := some 0
  score := some 0

/-- `startGame` in game-state.ts. -/
def startGame (_state : GameState) (now : Rat) : GameStateUpdate :=
  { phase := some (GamePhaseValue .PLAYING), startTime := some now, lastMoveTime := some now }

/-- `pauseGame` in game-state.ts. -/
def pauseGame (state : GameState) : Option GameStateUpdate :=
  if state.phase ≠ GamePhaseValue .PLAYING then none
  else some { phase := some (GamePhaseValue .PAUSED) }

/-- `resumeGame` in game-state.ts. -/
def resumeGame (state : GameState) (now : Rat) : Option GameStateUpdate :=
  if state.phase ≠ GamePhaseValue .PAUSED then none
  else some { phase := some (GamePhaseValue .PLAYING), lastMoveTime := some now }

/-- `selectCard` in game-state.ts. -/
def selectCard (state : GameState) (cardEntityId : Int) (_cardValue : Int) (now : Rat) :
    Option GameStateUpdate :=
  if state.phase ≠ GamePhaseValue .PLAYING then none
  else if cardEntityId = state.firstSelectedCardEntityId ∨
      cardEntityId = state.secondSelectedCardEntityId then none
  else if state.firstSelectedCardEntityId = -1 then
    some { firstSelectedCardEntityId := some cardEntityId, lastMoveTime := some now }
  else if state.secondSelectedCardEntityId = -1 then
    some { secondSelectedCardEntityId := some cardEntityId,
           moveCount := some (state.moveCount + 1), lastMoveTime := some now }
  else none

/-- `checkForMatch` in game-state.ts. -/
def checkForMatch (state : GameState) (firstCardValue secondCardValue : Int) (now : Rat) :
    GameStateUpdate :=
  let isMatch := firstCardValue == secondCardValue
  let matchCount := if isMatch then state.matchCount + 1 else state.matchCount
  let isGameOver := state.totalPairs ≤ matchCount
  let score :=
    if isMatch then
      let withBase := state.score + 50
      let timeTaken := now - state.lastMoveTime
      if timeTaken < 3000 then withBase + ⌊(3000 - timeTaken) / 100⌋ else withBase
    else state.score
  if isGameOver then
    { matchCount := some matchCount, phase := some (GamePhaseValue .GAME_OVER),
      score := some score }
  else
    { matchCount := some matchCount, score := some score }

/-- `resetSelection` in game-state.ts. -/
def resetSelection (_state : GameState) (now : Rat) : GameStateUpdate :=
  { firstSelectedCardEntityId := some (-1), secondSelectedCardEntityId := some (-1),
    lastMoveTime := some now }

/-- `updateGameTimer` in game-state.ts. -/
def updateGameTimer (state : GameState) (currentTime : Rat) : Option GameStateUpdate :=
  if state.phase ≠ GamePhaseValue .PLAYING then none
  else
    let startTime := if 0 < state.startTime then state.startTime else currentTime
    some { elapsedTime := some ((currentTime - startTime) / 1000), startTime := some startTime }

/-- `calculateFinalScore` in game-state.ts. -/
def calculateFinalScore (state : GameState) : Rat :=
  let score : Rat := (state.matchCount : Rat) * 100
  let timeBonus : Rat := max 0 (120 - state.elapsedTime) * 5
  let perfectMoves := state.totalPairs * 2
  let moveEfficiency := max 0 (perfectMoves * 3 - state.moveCount)
  let moveBonus := moveEfficiency * 10
  score + timeBonus + (moveBonus : Rat)

/-- The `Board` component. -/
structure Board where
  rows : Int
  columns : Int
  width : Rat
  height : Rat
  cardWidth : Rat
  cardHeight : Rat
  gap : Rat
deriving DecidableEq

/-- Truncation toward zero: the rounding implied by JavaScript's `%`. -/
def jsTrunc (q : Rat) : Int := if 0 ≤ q then ⌊q⌋ else ⌈q⌉

/-- JavaScript's remainder `a % b` on finite numbers: `a - b * trunc (a / b)`. -/
def jsMod (a b : Rat) : Rat := a - b * (jsTrunc (a / b) : Rat)

/-- `getCardIndexAtPosition` in board.ts. -/
def getCardIndexAtPosition (board : Board) (x y : Rat) : Int :=
  let cardWidthWithGap := board.cardWidth + board.gap
  let cardHeightWithGap := board.cardHeight + board.gap
  let col := ⌊x / cardWidthWithGap⌋
  let row := ⌊y / cardHeightWithGap⌋
  if col < 0 ∨ board.columns ≤ col ∨ row < 0 ∨ board.rows ≤ row then -1
  else
    let xRemainder := jsMod x cardWidthWithGap
    let yRemainder := jsMod y cardHeightWithGap
    if board.cardWidth < xRemainder ∨ board.cardHeight < yRemainder then -1
    else row * board.columns + col

/-- One swap of the Fisher-Yates loop body (destructuring assignment on two
array positions). -/
def listSwap (l : List Int) (i j : Nat) : List Int :=
  match l[i]?, l[j]? with
  | some a, some b => (l.set i b).set j a
  | _, _ => l

/-- The Fisher-Yates loop of `shuffle` in random.ts, from position `i` down to
1; `draw i % (i + 1)` models `Math.floor(Math.random() * (i + 1))`. -/
def shuffleAux (draw : Nat → Nat) : List Int → Nat → List Int
  | l, 0 => l
  | l, i + 1 => shuffleAux draw (listSwap l (i + 1) (draw (i + 1) % (i + 2))) i

/-- `shuffle` in random.ts over an injected random stream. -/
def shuffle (draw : Nat → Nat) (l : List Int) : List Int :=
  shuffleAux draw l (l.length - 1)

/-- `createCardPairs` in random.ts: `[1..pairCount].flatMap(v => [v, v])`
(`Array.from` with a negative length yields the empty array). -/
def createCardPairs (pairCount : Int) : List Int :=
  ((List.range pairCount.toNat).map (fun (i : Nat) => (i : Int) + 1)).flatMap
    (fun v => [v, v])

/-- `hasAdjacentPairs` in random.ts. -/
def hasAdjacentPairs : List Int → Bool
  | [] => false
  | [_] => false
  | a :: b :: rest => a == b || hasAdjacentPairs (b :: rest)

/-- The retry loop of `ensureFairDistribution`: `draws k` is the random stream
of attempt `k`, `fuel` the remaining attempts (`maxAttempts - attempts`). -/
def ensureFairAux (draws : Nat → Nat → Nat) : Nat → Nat → List Int → List Int
  | _, 0, result => result
  | attempt, fuel + 1, result =>
    if hasAdjacentPairs result then
      ensureFairAux draws (attempt + 1) fuel (shuffle (draws attempt) result)
    else result

/-- `ensureFairDistribution` in random.ts. -/
def ensureFairDistribution (draws : Nat → Nat → Nat) (values : List Int)
    (maxAttempts : Nat) : List Int :=
  ensureFairAux draws 0 maxAttempts values

/-- `generateCardValuesForBoard` in random.ts; `draw0` feeds the initial
shuffle and `draws` the fairness retries (`maxAttempts` defaults to 3). -/
def generateCardValuesForBoard (draw0 : Nat → Nat) (draws : Nat → Nat → Nat)
    (rows columns : Int) : Except String (List Int) :=
  let totalCards := rows * columns
  if totalCards % 2 ≠ 0 then
    .error "Board dimensions must allow for even number of cards"
  else
    let pairCount := totalCards / 2
    let pairs := createCardPairs pairCount
    let shuffled := shuffle draw0 pairs
    .ok (ensureFairDistribution draws shuffled 3)

/-- The `InputEvent` interface of game-logic-system.ts. -/
inductive InputType where
  | click
  | touch
  | key
deriving DecidableEq

/-- An input event; optional fields are absent (`undefined`) by default. -/
structure InputEvent where
  type : InputType
  x : Option Rat := none
  y : Option Rat := none
  key : Option String := none
  entityId : Option Int := none
  timestamp : Rat
deriving DecidableEq

/-- What the engine's pure functions return: nullable state updates plus the
card updates keyed by entity, an entity being its position in the list. -/
structure EngineResult where
  stateUpdates : Option GameStateUpdate
  cardUpdates : List (Nat × CardUpdate)
deriving DecidableEq

/-- `cardEntities.find(entity => entity.id === eid)`, with the position of the
found entity recording its object identity. -/
def findEntity : List Card → Int → Option (Nat × Card)
  | [], _ => none
  | c :: cs, eid =>
    if c.id = eid then some (0, c)
    else (findEntity cs eid).map (fun p => (p.1 + 1, p.2))

/-- `processPointerEvent` in game-logic-system.ts. -/
def processPointerEvent (event : InputEvent) (gameState : GameState) (board : Board)
    (cardEntities : List Card) (now : Rat) : EngineResult :=
  match event.x, event.y with
  | some x, some y =>
    let cardIndex := getCardIndexAtPosition board x y
    if cardIndex = -1 ∨ (cardEntities.length : Int) ≤ cardIndex then ⟨none, []⟩
    else
      match cardEntities[cardIndex.toNat]? with
      | none => ⟨none, []⟩
      | some card =>
        if card.isMatched || card.isFlipped then ⟨none, []⟩
        else
          match selectCard gameState card.id card.value now with
          | none => ⟨none, []⟩
          | some stateUpdates => ⟨some stateUpdates, [(cardIndex.toNat, flipCard card)]⟩
  | _, _ => ⟨none, []⟩

/-- `processKeyEvent` in game-logic-system.ts. -/
def processKeyEvent (event : InputEvent) (gameState : GameState)
    (cardEntities : List Card) (now : Rat) : EngineResult :=
  match event.entityId with
  | none => ⟨none, []⟩
  | some eid =>
    match findEntity cardEntities eid with
    | none => ⟨none, []⟩
    | some (i, card) =>
      if card.isMatched || card.isFlipped then ⟨none, []⟩
      else
        match selectCard gameState eid card.value now with
        | none => ⟨none, []⟩
        | some stateUpdates => ⟨some stateUpdates, [(i, flipCard card)]⟩

/-- `processGameInput` in game-logic-system.ts. -/
def processGameInput (event : InputEvent) (gameState : GameState) (board : Board)
    (cardEntities : List Card) (now : Rat) : EngineResult :=
  if gameState.phase ≠ GamePhaseValue .PLAYING then ⟨none, []⟩
  else
    match event.type with
    | .click => processPointerEvent event gameState board cardEntities now
    | .touch => processPointerEvent event gameState board cardEntities now
    | .key => processKeyEvent event gameState cardEntities now

/-- `evaluateCardMatches` in game-logic-system.ts. -/
def evaluateCardMatches (gameState : GameState) (cardEntities : List Card) (now : Rat) :
    EngineResult :=
  if gameState.firstSelectedCardEntityId = -1 ∨ gameState.secondSelectedCardEntityId = -1 then
    ⟨none, []⟩
  else
    match findEntity cardEntities gameState.firstSelectedCardEntityId,
        findEntity cardEntities gameState.secondSelectedCardEntityId with
    | none, _ => ⟨some (resetSelection gameState now), []⟩
    | some _, none => ⟨some (resetSelection gameState now), []⟩
    | some (i, firstCard), some (j, secondCard) =>
      let isMatch := firstCard.value == secondCard.value
      let stateUpdates := checkForMatch gameState firstCard.value secondCard.value now
      let cardUpdates :=
        if isMatch then
          (match matchCard firstCard with
            | some u => [(i, u)]
            | none => ([] : List (Nat × CardUpdate))) ++
          (match matchCard secondCard with
            | some u => [(j, u)]
            | none => ([] : List (Nat × CardUpdate)))
        else []
      ⟨some stateUpdates, cardUpdates⟩

/-- `NON_MATCH_FLIP_DELAY` in game-logic-system.ts (milliseconds). -/
def NON_MATCH_FLIP_DELAY : Rat := 1000

/-- `handleUnmatchedCards` in game-logic-system.ts. -/
def handleUnmatchedCards (gameState : GameState) (cardEntities : List Card)
    (currentTime : Rat) : EngineResult :=
  if gameState.firstSelectedCardEntityId = -1 ∨ gameState.secondSelectedCardEntityId = -1 then
    ⟨none, []⟩
  else
    match findEntity cardEntities gameState.firstSelectedCardEntityId,
        findEntity cardEntities gameState.secondSelectedCardEntityId with
    | none, _ => ⟨some (resetSelection gameState currentTime), []⟩
    | some _, none => ⟨some (resetSelection gameState currentTime), []⟩
    | some (i, firstCard), some (j, secondCard) =>
      if !firstCard.isFlipped || !secondCard.isFlipped ||
          firstCard.isMatched || secondCard.isMatched then ⟨none, []⟩
      else if currentTime - gameState.lastMoveTime < NON_MATCH_FLIP_DELAY then ⟨none, []⟩
      else
        ⟨some (resetSelection gameState currentTime),
          [(i, flipCard firstCard), (j, flipCard secondCard)]⟩

/-- `Object.assign` on the card entity at position `i` (out-of-range updates
cannot arise: the TS `Map` is keyed by live entities). -/
def modifyCardAt (cards : List Card) (i : Nat) (u : CardUpdate) : List Card :=
  match cards[i]? with
  | some c => cards.set i (applyCardUpdate c u)
  | none => cards

/-- Applying a batch of card updates in iteration order. -/
def applyCardUpdates (cards : List Card) (updates : List (Nat × CardUpdate)) : List Card :=
  updates.foldl (fun cs p => modifyCardAt cs p.1 p.2) cards

/-- `GameLogicSystem.processInputEvents`: drain the queue in order, folding
each event's updates into the state and the cards. -/
def processInputEvents (gameState : GameState) (board : Board) (cards : List Card)
    (events : List InputEvent) (now : Rat) : GameState × List Card :=
  if gameState.phase ≠ GamePhaseValue .PLAYING then (gameState, cards)
  else
    events.foldl
      (fun acc event =>
        let r := processGameInput event acc.1 board acc.2 now
        (applyUpdateOpt acc.1 r.stateUpdates, applyCardUpdates acc.2 r.cardUpdates))
      (gameState, cards)

/-- `GameLogicSystem.evaluateGameState`: match evaluation (unconditionally),
then the unmatched-card timeout only while the phase is still PLAYING. -/
def evaluateGameState (gameState : GameState) (cards : List Card) (now : Rat) :
    GameState × List Card :=
  let m := evaluateCardMatches gameState cards now
  let afterMatch :=
    match m.stateUpdates with
    | some u => (applyUpdate gameState u, applyCardUpdates cards m.cardUpdates)
    | none => (gameState, cards)
  if afterMatch.1.phase = GamePhaseValue .PLAYING then
    let r := handleUnmatchedCards afterMatch.1 afterMatch.2 now
    (applyUpdateOpt afterMatch.1 r.stateUpdates, applyCardUpdates afterMatch.2 r.cardUpdates)
  else afterMatch

/-- One run of `GameLogicSystem.execute` over a fixed board and card-entity
population: timer update, input drain, then match/timeout evaluation.  The
INITIALIZING branch (board population) is covered by `Reachable.init`. -/
def tick (board : Board) (gameState : GameState) (cards : List Card)
    (events : List InputEvent) (now : Rat) : GameState × List Card :=
  let s0 := applyUpdateOpt gameState (updateGameTimer gameState now)
  let afterInput := processInputEvents s0 board cards events now
  evaluateGameState afterInput.1 afterInput.2 now

/-- The game states reachable by the engine: the board initializer's output
(`initializeGame` beside freshly created face-down cards with distinct
nonnegative entity ids, at least one pair), the lifecycle transitions, and
arbitrary engine ticks. -/
inductive Reachable (board : Board) : GameState → List Card → Prop where
  | init (s0 : GameState) (n : Int) (cards : List Card) (hn : 0 < n)
      (hids : (cards.map Card.id).Nodup)
      (hpos : ∀ c ∈ cards, 0 ≤ c.id)
      (hflip : ∀ c ∈ cards, c.isFlipped = false)
      (hmatch : ∀ c ∈ cards, c.isMatched = false) :
      Reachable board (applyUpdate s0 (initializeGame s0 n)) cards
  | start (s : GameState) (cards : List Card) (now : Rat) :
      Reachable board s cards →
      Reachable board (applyUpdate s (startGame s now)) cards
  | pause (s : GameState) (cards : List Card) (u : GameStateUpdate) :
      Reachable board s cards → pauseGame s = some u →
      Reachable board (applyUpdate s u) cards
  | resume (s : GameState) (cards : List Card) (now : Rat) (u : GameStateUpdate) :
      Reachable board s cards → resumeGame s now = some u →
      Reachable board (applyUpdate s u) cards
  | step (s : GameState) (cards : List Card) (events : List InputEvent) (now : Rat) :
      Reachable board s cards →
      Reachable board (tick board s cards events now).1 (tick board s cards events now).2

/-! ### Basic lemmas about update application -/

theorem applyCardUpdates_nil (cards : List Card) : applyCardUpdates cards [] = cards := rfl

theorem applyCardUpdates_cons (cards : List Card) (p : Nat × CardUpdate)
    (rest : List (Nat × CardUpdate)) :
    applyCardUpdates cards (p :: rest) = applyCardUpdates (modifyCardAt cards p.1 p.2) rest := rfl

theorem applyCardUpdate_id_of_none {u : CardUpdate} (h : u.id = none) (c : Card) :
    (applyCardUpdate c u).id = c.id := by
  simp [applyCardUpdate, h]

theorem modifyCardAt_getElem? (cards : List Card) (i : Nat) (u : CardUpdate) (k : Nat) :
    (modifyCardAt cards i u)[k]? =
      if i = k then (cards[k]?).map (fun c => applyCardUpdate c u) else cards[k]? := by
  unfold modifyCardAt
  cases h : cards[i]? with
  | none =>
    rcases eq_or_ne i k with rfl | hik
    · simp [h]
    · simp [hik]
  | some c =>
    rw [List.getElem?_set]
    rcases eq_or_ne i k with rfl | hik
    · obtain ⟨hlt, _⟩ := List.getElem?_eq_some.mp h
      simp [h, hlt]
    · simp [hik]

theorem map_id_modifyCardAt (cards : List Card) (i : Nat) {u : CardUpdate}
    (h : u.id = none) : (modifyCardAt cards i u).map Card.id = cards.map Card.id := by
  apply List.ext_getElem?
  intro n
  rw [List.getElem?_map, List.getElem?_map, modifyCardAt_getElem?]
  rcases eq_or_ne i n with rfl | hin
  · cases hc : cards[i]? <;> simp [hc, applyCardUpdate_id_of_none h]
  · simp [hin]

theorem map_id_applyCardUpdates (cards : List Card) (us : List (Nat × CardUpdate))
    (h : ∀ p ∈ us, (p : Nat × CardUpdate).2.id = none) :
    (applyCardUpdates cards us).map Card.id = cards.map Card.id := by
  induction us generalizing cards with
  | nil => rfl
  | cons p rest ih =>
    rw [applyCardUpdates_cons, ih _ (fun q hq => h q (List.mem_cons_of_mem _ hq)),
      map_id_modifyCardAt _ _ (h p (List.mem_cons_self _ _))]

theorem mem_modifyCardAt {c' : Card} {cards : List Card} {i : Nat} {u : CardUpdate}
    (h : c' ∈ modifyCardAt cards i u) :
    c' ∈ cards ∨ ∃ c, cards[i]? = some c ∧ c' = applyCardUpdate c u := by
  unfold modifyCardAt at h
  cases hc : cards[i]? with
  | none => rw [hc] at h; exact Or.inl h
  | some c =>
    rw [hc] at h
    rcases List.mem_or_eq_of_mem_set h with h' | rfl
    · exact Or.inl h'
    · exact Or.inr ⟨c, rfl, rfl⟩

theorem mem_of_matched_updates {cards : List Card} {us : List (Nat × CardUpdate)}
    (hall : ∀ p ∈ us, (p : Nat × CardUpdate).2.isMatched = some true)
    {c' : Card} (hc' : c' ∈ applyCardUpdates cards us) (hm : c'.isMatched = false) :
    c' ∈ cards := by
  induction us generalizing cards with
  | nil => exact hc'
  | cons p rest ih =>
    rw [applyCardUpdates_cons] at hc'
    have h1 : c' ∈ modifyCardAt cards p.1 p.2 :=
      ih (fun q hq => hall q (List.mem_cons_of_mem _ hq)) hc'
    rcases mem_modifyCardAt h1 with h' | ⟨c, _, rfl⟩
    · exact h'
    · simp [applyCardUpdate, hall p (List.mem_cons_self _ _)] at hm

/-! ### findEntity lemmas -/

theorem findEntity_eq_some {cards : List Card} {eid : Int} {i : Nat} {c : Card}
    (h : findEntity cards eid = some (i, c)) : cards[i]? = some c ∧ c.id = eid := by
  induction cards generalizing i with
  | nil => simp [findEntity] at h
  | cons hd tl ih =>
    by_cases hh : hd.id = eid
    · rw [findEntity, if_pos hh] at h
      simp only [Option.some.injEq, Prod.mk.injEq] at h
      obtain ⟨rfl, rfl⟩ := h
      exact ⟨by simp, hh⟩
    · rw [findEntity, if_neg hh] at h
      cases ho : findEntity tl eid with
      | none => rw [ho] at h; simp at h
      | some p =>
        obtain ⟨k, c0⟩ := p
        rw [ho] at h
        simp only [Option.map_some', Option.some.injEq, Prod.mk.injEq] at h
        obtain ⟨rfl, rfl⟩ := h
        obtain ⟨hget, hid⟩ := ih ho
        exact ⟨by simpa using hget, hid⟩

theorem findEntity_of_mem_ids {cards : List Card} {eid : Int}
    (h : eid ∈ cards.map Card.id) : ∃ p, findEntity cards eid = some p := by
  induction cards with
  | nil => simp at h
  | cons hd tl ih =>
    by_cases hh : hd.id = eid
    · exact ⟨(0, hd), by rw [findEntity, if_pos hh]⟩
    · have htl : eid ∈ tl.map Card.id := by
        rcases List.mem_map.mp h with ⟨c, hc, he⟩
        rcases List.mem_cons.mp hc with rfl | hmem
        · exact absurd he hh
        · exact List.mem_map.mpr ⟨c, hmem, he⟩
      obtain ⟨p, hp⟩ := ih htl
      exact ⟨(p.1 + 1, p.2), by rw [findEntity, if_neg hh, hp]; rfl⟩

theorem nodup_ids_getElem?_unique {cards : List Card}
    (hn : (cards.map Card.id).Nodup) {i k : Nat} {c c' : Card}
    (hi : cards[i]? = some c) (hk : cards[k]? = some c') (hid : c.id = c'.id) : i = k := by
  have h1 : (cards.map Card.id)[i]? = some c.id := by
    rw [List.getElem?_map, hi, Option.map_some']
  have h2 : (cards.map Card.id)[k]? = some c.id := by
    rw [List.getElem?_map, hk, Option.map_some', hid]
  obtain ⟨hl1, he1⟩ := List.getElem?_eq_some.mp h1
  obtain ⟨hl2, he2⟩ := List.getElem?_eq_some.mp h2
  exact (List.Nodup.getElem_inj_iff hn).mp (he1.trans he2.symm)

theorem mem_of_getElem?_card {cards : List Card} {i : Nat} {c : Card}
    (h : cards[i]? = some c) : c ∈ cards :=
  List.mem_iff_getElem?.mpr ⟨i, h⟩

/-! ### The pair generator preserves length and counts -/

theorem count_set_of_getElem? {l : List Int} {i : Nat} {c : Int} (h : l[i]? = some c)
    (b a : Int) :
    (l.set i b).count a + (if c == a then 1 else 0) = l.count a + (if b == a then 1 else 0) := by
  induction l generalizing i with
  | nil => simp at h
  | cons hd tl ih =>
    cases i with
    | zero =>
      simp only [List.getElem?_cons_zero, Option.some.injEq] at h
      subst h
      simp only [List.set_cons_zero, List.count_cons]
      omega
    | succ n =>
      simp only [List.getElem?_cons_succ] at h
      simp only [List.set_cons_succ, List.count_cons]
      have := ih h
      omega

theorem listSwap_eq_of_getElem? {l : List Int} {i j : Nat} {vi vj : Int}
    (h1 : l[i]? = some vi) (h2 : l[j]? = some vj) :
    listSwap l i j = (l.set i vj).set j vi := by
  unfold listSwap
  rw [h1, h2]

theorem count_listSwap (l : List Int) (i j : Nat) (a : Int) :
    (listSwap l i j).count a = l.count a := by
  cases h1 : l[i]? with
  | none => unfold listSwap; rw [h1]
  | some vi =>
    cases h2 : l[j]? with
    | none => unfold listSwap; rw [h1, h2]
    | some vj =>
      rw [listSwap_eq_of_getElem? h1 h2]
      have hj2 : (l.set i vj)[j]? = some vj := by
        rw [List.getElem?_set]
        rcases eq_or_ne i j with rfl | hne
        · obtain ⟨hlt, _⟩ := List.getElem?_eq_some.mp h1
          simp [hlt]
        · simp [hne, h2]
      have e1 := count_set_of_getElem? h1 vj a
      have e2 := count_set_of_getElem? hj2 vi a
      omega

theorem length_listSwap (l : List Int) (i j : Nat) :
    (listSwap l i j).length = l.length := by
  cases h1 : l[i]? with
  | none => unfold listSwap; rw [h1]
  | some vi =>
    cases h2 : l[j]? with
    | none => unfold listSwap; rw [h1, h2]
    | some vj => rw [listSwap_eq_of_getElem? h1 h2]; simp

theorem count_shuffleAux (draw : Nat → Nat) (a : Int) :
    ∀ (n : Nat) (l : List Int), (shuffleAux draw l n).count a = l.count a
  | 0, _ => rfl
  | n + 1, l => by
    rw [shuffleAux, count_shuffleAux draw a n, count_listSwap]

theorem length_shuffleAux (draw : Nat → Nat) :
    ∀ (n : Nat) (l : List Int), (shuffleAux draw l n).length = l.length
  | 0, _ => rfl
  | n + 1, l => by
    rw [shuffleAux, length_shuffleAux draw n, length_listSwap]

theorem count_shuffle (draw : Nat → Nat) (l : List Int) (a : Int) :
    (shuffle draw l).count a = l.count a :=
  count_shuffleAux draw a _ l

theorem length_shuffle (draw : Nat → Nat) (l : List Int) :
    (shuffle draw l).length = l.length :=
  length_shuffleAux draw _ l

theorem count_ensureFairAux (draws : Nat → Nat → Nat) (a : Int) :
    ∀ (fuel attempt : Nat) (l : List Int),
      (ensureFairAux draws attempt fuel l).count a = l.count a
  | 0, _, _ => rfl
  | fuel + 1, attempt, l => by
    rw [ensureFairAux]
    split
    · rw [count_ensureFairAux draws a fuel (attempt + 1), count_shuffle]
    · rfl

theorem length_ensureFairAux (draws : Nat → Nat → Nat) :
    ∀ (fuel attempt : Nat) (l : List Int),
      (ensureFairAux draws attempt fuel l).length = l.length
  | 0, _, _ => rfl
  | fuel + 1, attempt, l => by
    rw [ensureFairAux]
    split
    · rw [length_ensureFairAux draws fuel (attempt + 1), length_shuffle]
    · rfl

theorem count_createCardPairs_range (m : Nat) (a : Int) :
    (((List.range m).map (fun (i : Nat) => (i : Int) + 1)).flatMap (fun v => [v, v])).count a
      = if 1 ≤ a ∧ a ≤ (m : Int) then 2 else 0 := by
  induction m with
  | zero =>
    simp only [List.range_zero, List.map_nil, List.flatMap_nil, List.count_nil, Nat.cast_zero]
    split_ifs with hcond
    · omega
    · rfl
  | succ k ih =>
    rw [List.range_succ, List.map_append, List.flatMap_append, List.count_append, ih]
    simp only [List.map_cons, List.map_nil, List.flatMap_cons, List.flatMap_nil,
      List.append_nil, List.count_cons, List.count_nil, beq_iff_eq]
    push_cast
    split_ifs <;> omega

theorem length_createCardPairs_range (m : Nat) :
    (((List.range m).map (fun (i : Nat) => (i : Int) + 1)).flatMap (fun v => [v, v])).length
      = 2 * m := by
  induction m with
  | zero => rfl
  | succ k ih =>
    rw [List.range_succ, List.map_append, List.flatMap_append, List.length_append, ih]
    simp
    omega

/-! ### The selection invariant -/

/-- The inductive invariant of the engine: entity ids are distinct and
nonnegative, a second selection implies a first, selected ids resolve to
entities, and every face-up unmatched card is one of the two selections. -/
structure Inv (s : GameState) (cards : List Card) : Prop where
  nodup : (cards.map Card.id).Nodup
  nonneg : ∀ c ∈ cards, 0 ≤ c.id
  slots : s.secondSelectedCardEntityId ≠ -1 → s.firstSelectedCardEntityId ≠ -1
  ref1 : s.firstSelectedCardEntityId ≠ -1 →
    s.firstSelectedCardEntityId ∈ cards.map Card.id
  ref2 : s.secondSelectedCardEntityId ≠ -1 →
    s.secondSelectedCardEntityId ∈ cards.map Card.id
  flip : ∀ c ∈ cards, c.isFlipped = true → c.isMatched = false →
    c.id = s.firstSelectedCardEntityId ∨ c.id = s.secondSelectedCardEntityId

/-- The invariant only looks at the selection slots of the state. -/
theorem Inv.of_slots_eq {s s' : GameState} {cards : List Card} (h : Inv s cards)
    (h1 : s'.firstSelectedCardEntityId = s.firstSelectedCardEntityId)
    (h2 : s'.secondSelectedCardEntityId = s.secondSelectedCardEntityId) : Inv s' cards where
  nodup := h.nodup
  nonneg := h.nonneg
  slots := by rw [h1, h2]; exact h.slots
  ref1 := by rw [h1]; exact h.ref1
  ref2 := by rw [h2]; exact h.ref2
  flip := by rw [h1, h2]; exact h.flip

/-- Updates that do not carry the selection fields preserve the invariant. -/
theorem Inv.applyUpdate_frame {s : GameState} {cards : List Card} (h : Inv s cards)
    {u : GameStateUpdate} (h1 : u.firstSelectedCardEntityId = none)
    (h2 : u.secondSelectedCardEntityId = none) : Inv (applyUpdate s u) cards :=
  h.of_slots_eq (by simp [applyUpdate, h1]) (by simp [applyUpdate, h2])

theorem Inv.updateGameTimer {s : GameState} {cards : List Card} (h : Inv s cards)
    (t : Rat) : Inv (applyUpdateOpt s (updateGameTimer s t)) cards := by
  cases hu : MemoGame.updateGameTimer s t with
  | none => exact h
  | some u =>
    rw [MemoGame.updateGameTimer] at hu
    split at hu
    · exact absurd hu (by simp)
    · obtain rfl := Option.some.inj hu
      exact h.applyUpdate_frame rfl rfl

theorem Inv.startGame {s : GameState} {cards : List Card} (h : Inv s cards) (now : Rat) :
    Inv (applyUpdate s (startGame s now)) cards :=
  h.applyUpdate_frame rfl rfl

theorem Inv.pauseGame {s : GameState} {cards : List Card} (h : Inv s cards)
    {u : GameStateUpdate} (hu : pauseGame s = some u) : Inv (applyUpdate s u) cards := by
  rw [MemoGame.pauseGame] at hu
  split at hu
  · exact absurd hu (by simp)
  · obtain rfl := Option.some.inj hu
    exact h.applyUpdate_frame rfl rfl

theorem Inv.resumeGame {s : GameState} {cards : List Card} (h : Inv s cards)
    {now : Rat} {u : GameStateUpdate} (hu : resumeGame s now = some u) :
    Inv (applyUpdate s u) cards := by
  rw [MemoGame.resumeGame] at hu
  split at hu
  · exact absurd hu (by simp)
  · obtain rfl := Option.some.inj hu
    exact h.applyUpdate_frame rfl rfl

theorem Inv.initializeGame (s0 : GameState) (n : Int) (cards : List Card)
    (hids : (cards.map Card.id).Nodup)
    (hpos : ∀ c ∈ cards, 0 ≤ c.id)
    (hflip : ∀ c ∈ cards, c.isFlipped = false) :
    Inv (applyUpdate s0 (initializeGame s0 n)) cards where
  nodup := hids
  nonneg := hpos
  slots := by intro hh; exact absurd rfl hh
  ref1 := by intro hh; exact absurd rfl hh
  ref2 := by intro hh; exact absurd rfl hh
  flip := by
    intro c hc hfl _
    exact absurd (hfl ▸ hflip c hc) (by simp)

/-- The invariant transported through one engine result. -/
def InvRes (s : GameState) (cards : List Card) (r : EngineResult) : Prop :=
  Inv (applyUpdateOpt s r.stateUpdates) (applyCardUpdates cards r.cardUpdates)

theorem invRes_trivial {s : GameState} {cards : List Card} (h : Inv s cards) :
    InvRes s cards ⟨none, []⟩ := h

theorem matchCard_some {c : Card} {u : CardUpdate} (h : matchCard c = some u) :
    u = { isMatched := some true } := by
  rw [matchCard] at h
  split at h
  · exact absurd h (by simp)
  · exact (Option.some.inj h).symm

theorem checkForMatch_first (s : GameState) (v1 v2 : Int) (t : Rat) :
    (checkForMatch s v1 v2 t).firstSelectedCardEntityId = none := by
  rw [checkForMatch]
  split <;> split <;> rfl

theorem checkForMatch_second (s : GameState) (v1 v2 : Int) (t : Rat) :
    (checkForMatch s v1 v2 t).secondSelectedCardEntityId = none := by
  rw [checkForMatch]
  split <;> split <;> rfl

theorem nonneg_of_same_ids {cards cards2 : List Card}
    (h : ∀ c ∈ cards, 0 ≤ c.id) (hids : cards2.map Card.id = cards.map Card.id) :
    ∀ c ∈ cards2, 0 ≤ c.id := by
  intro c' hc'
  have hmem : c'.id ∈ cards.map Card.id := by
    rw [← hids]
    exact List.mem_map.mpr ⟨c', hc', rfl⟩
  obtain ⟨c, hc, he⟩ := List.mem_map.mp hmem
  exact he ▸ h c hc

theorem applyCardUpdates_singleton (cards : List Card) (i : Nat) (u : CardUpdate) :
    applyCardUpdates cards [(i, u)] = modifyCardAt cards i u := rfl

theorem flip_id (base c : Card) : (applyCardUpdate base (flipCard c)).id = base.id := rfl

theorem flip_isFlipped (base c : Card) :
    (applyCardUpdate base (flipCard c)).isFlipped = !c.isFlipped := rfl

/-- An accepted selection with its card flip preserves the invariant. -/
theorem invRes_select {s : GameState} {cards : List Card} (h : Inv s cards)
    {i : Nat} {card : Card} (hci : cards[i]? = some card)
    {v : Int} {now : Rat} {u : GameStateUpdate}
    (hsel : selectCard s card.id v now = some u) :
    InvRes s cards ⟨some u, [(i, flipCard card)]⟩ := by
  have hmemc : card ∈ cards := mem_of_getElem?_card hci
  have hidnn : 0 ≤ card.id := h.nonneg card hmemc
  have hids : (applyCardUpdates cards [(i, flipCard card)]).map Card.id = cards.map Card.id := by
    apply map_id_applyCardUpdates
    intro p hp
    obtain rfl := List.mem_singleton.mp hp
    rfl
  have hidmem : card.id ∈ (applyCardUpdates cards [(i, flipCard card)]).map Card.id := by
    rw [hids]
    exact List.mem_map.mpr ⟨card, hmemc, rfl⟩
  rw [selectCard] at hsel
  split at hsel
  · exact absurd hsel (by simp)
  · split at hsel
    · exact absurd hsel (by simp)
    · split at hsel
      · -- first selection: the first slot was empty, hence so was the second
        rename_i hfirst
        obtain rfl := Option.some.inj hsel
        have hsecond : s.secondSelectedCardEntityId = -1 := by
          by_contra hs2
          exact h.slots hs2 hfirst
        refine { nodup := ?_, nonneg := nonneg_of_same_ids h.nonneg hids,
                 slots := ?_, ref1 := ?_, ref2 := ?_, flip := ?_ }
        · show ((applyCardUpdates cards [(i, flipCard card)]).map Card.id).Nodup
          rw [hids]
          exact h.nodup
        · intro _
          show card.id ≠ -1
          omega
        · intro _
          exact hidmem
        · intro hh
          exact absurd hsecond hh
        · intro c hcmem hfl hm
          obtain ⟨n, hn⟩ := List.mem_iff_getElem?.mp hcmem
          rw [applyCardUpdates_singleton, modifyCardAt_getElem?] at hn
          by_cases hin : i = n
          · rw [if_pos hin] at hn
            obtain ⟨base, hbase, rfl⟩ := Option.map_eq_some'.mp hn
            rw [← hin, hci] at hbase
            obtain rfl := Option.some.inj hbase
            left
            rfl
          · rw [if_neg hin] at hn
            have hmem0 : c ∈ cards := mem_of_getElem?_card hn
            rcases h.flip c hmem0 hfl hm with h1 | h2
            · exact absurd (h1.trans hfirst) (by have := h.nonneg c hmem0; omega)
            · exact absurd (h2.trans hsecond) (by have := h.nonneg c hmem0; omega)
      · split at hsel
        · -- second selection: first occupied, second empty
          rename_i hne hfirst hsecond
          obtain rfl := Option.some.inj hsel
          refine { nodup := ?_, nonneg := nonneg_of_same_ids h.nonneg hids,
                   slots := ?_, ref1 := ?_, ref2 := ?_, flip := ?_ }
          · show ((applyCardUpdates cards [(i, flipCard card)]).map Card.id).Nodup
            rw [hids]
            exact h.nodup
          · intro _
            exact hfirst
          · intro _
            rw [hids]
            exact h.ref1 hfirst
          · intro _
            exact hidmem
          · intro c hcmem hfl hm
            obtain ⟨n, hn⟩ := List.mem_iff_getElem?.mp hcmem
            rw [applyCardUpdates_singleton, modifyCardAt_getElem?] at hn
            by_cases hin : i = n
            · rw [if_pos hin] at hn
              obtain ⟨base, hbase, rfl⟩ := Option.map_eq_some'.mp hn
              rw [← hin, hci] at hbase
              obtain rfl := Option.some.inj hbase
              right
              rfl
            · rw [if_neg hin] at hn
              have hmem0 : c ∈ cards := mem_of_getElem?_card hn
              rcases h.flip c hmem0 hfl hm with h1 | h2
              · exact Or.inl h1
              · exact absurd (h2.trans hsecond) (by have := h.nonneg c hmem0; omega)
        · exact absurd hsel (by simp)

theorem invRes_processKeyEvent {s : GameState} {cards : List Card} (ev : InputEvent)
    (now : Rat) (h : Inv s cards) : InvRes s cards (processKeyEvent ev s cards now) := by
  cases hei : ev.entityId with
  | none =>
    simp only [processKeyEvent, hei]
    exact invRes_trivial h
  | some eid =>
    cases hfe : findEntity cards eid with
    | none =>
      simp only [processKeyEvent, hei, hfe]
      exact invRes_trivial h
    | some p =>
      obtain ⟨i, card⟩ := p
      obtain ⟨hci, hid⟩ := findEntity_eq_some hfe
      by_cases hflag : (card.isMatched || card.isFlipped) = true
      · simp only [processKeyEvent, hei, hfe, if_pos hflag]
        exact invRes_trivial h
      · cases hsel : selectCard s eid card.value now with
        | none =>
          simp only [processKeyEvent, hei, hfe, if_neg hflag, hsel]
          exact invRes_trivial h
        | some u =>
          simp only [processKeyEvent, hei, hfe, if_neg hflag, hsel]
          rw [← hid] at hsel
          exact invRes_select h hci hsel

theorem invRes_processPointerEvent {s : GameState} {cards : List Card} (ev : InputEvent)
    (b : Board) (now : Rat) (h : Inv s cards) :
    InvRes s cards (processPointerEvent ev s b cards now) := by
  cases hx : ev.x with
  | none =>
    simp only [processPointerEvent, hx]
    exact invRes_trivial h
  | some x =>
    cases hy : ev.y with
    | none =>
      simp only [processPointerEvent, hx, hy]
      exact invRes_trivial h
    | some y =>
      by_cases hidx : getCardIndexAtPosition b x y = -1 ∨
          (cards.length : Int) ≤ getCardIndexAtPosition b x y
      · simp only [processPointerEvent, hx, hy, if_pos hidx]
        exact invRes_trivial h
      · cases hci : cards[(getCardIndexAtPosition b x y).toNat]? with
        | none =>
          simp only [processPointerEvent, hx, hy, if_neg hidx, hci]
          exact invRes_trivial h
        | some card =>
          by_cases hflag : (card.isMatched || card.isFlipped) = true
          · simp only [processPointerEvent, hx, hy, if_neg hidx, hci, if_pos hflag]
            exact invRes_trivial h
          · cases hsel : selectCard s card.id card.value now with
            | none =>
              simp only [processPointerEvent, hx, hy, if_neg hidx, hci, if_neg hflag, hsel]
              exact invRes_trivial h
            | some u =>
              simp only [processPointerEvent, hx, hy, if_neg hidx, hci, if_neg hflag, hsel]
              exact invRes_select h hci hsel

theorem invRes_processGameInput {s : GameState} {cards : List Card} (ev : InputEvent)
    (b : Board) (now : Rat) (h : Inv s cards) :
    InvRes s cards (processGameInput ev s b cards now) := by
  by_cases hp : s.phase ≠ GamePhaseValue .PLAYING
  · simp only [processGameInput, if_pos hp]
    exact invRes_trivial h
  · cases hty : ev.type with
    | click =>
      simp only [processGameInput, if_neg hp, hty]
      exact invRes_processPointerEvent ev b now h
    | touch =>
      simp only [processGameInput, if_neg hp, hty]
      exact invRes_processPointerEvent ev b now h
    | key =>
      simp only [processGameInput, if_neg hp, hty]
      exact invRes_processKeyEvent ev now h

theorem inv_processInputEvents {s : GameState} {cards : List Card} (b : Board)
    (events : List InputEvent) (now : Rat) (h : Inv s cards) :
    Inv (processInputEvents s b cards events now).1 (processInputEvents s b cards events now).2 := by
  rw [processInputEvents]
  split
  · exact h
  · clear * - h
    induction events generalizing s cards with
    | nil => exact h
    | cons ev rest ih =>
      rw [List.foldl_cons]
      exact ih (invRes_processGameInput ev b now h)

theorem applyUpdate_first (s : GameState) (u : GameStateUpdate) :
    (applyUpdate s u).firstSelectedCardEntityId =
      u.firstSelectedCardEntityId.getD s.firstSelectedCardEntityId := rfl

theorem applyUpdate_second (s : GameState) (u : GameStateUpdate) :
    (applyUpdate s u).secondSelectedCardEntityId =
      u.secondSelectedCardEntityId.getD s.secondSelectedCardEntityId := rfl

/-- Match-stage results (slot-preserving state update beside mark-matched card
updates) preserve the invariant. -/
theorem invRes_matchStage {s : GameState} {cards : List Card} (h : Inv s cards)
    (u : GameStateUpdate) (hu1 : u.firstSelectedCardEntityId = none)
    (hu2 : u.secondSelectedCardEntityId = none)
    (cu : List (Nat × CardUpdate))
    (hcu : ∀ p ∈ cu, (p : Nat × CardUpdate).2 = { isMatched := some true }) :
    InvRes s cards ⟨some u, cu⟩ := by
  have hids : (applyCardUpdates cards cu).map Card.id = cards.map Card.id :=
    map_id_applyCardUpdates _ _ (fun p hp => by rw [hcu p hp])
  have e1 : (applyUpdate s u).firstSelectedCardEntityId = s.firstSelectedCardEntityId := by
    rw [applyUpdate_first, hu1]
    rfl
  have e2 : (applyUpdate s u).secondSelectedCardEntityId = s.secondSelectedCardEntityId := by
    rw [applyUpdate_second, hu2]
    rfl
  show Inv (applyUpdate s u) (applyCardUpdates cards cu)
  refine { nodup := ?_, nonneg := nonneg_of_same_ids h.nonneg hids,
           slots := ?_, ref1 := ?_, ref2 := ?_, flip := ?_ }
  · show ((applyCardUpdates cards cu).map Card.id).Nodup
    rw [hids]
    exact h.nodup
  · rw [e1, e2]
    exact h.slots
  · rw [e1, hids]
    exact h.ref1
  · rw [e2, hids]
    exact h.ref2
  · intro c hcmem hfl hm
    have h0 : c ∈ cards :=
      mem_of_matched_updates (fun p hp => by rw [hcu p hp]) hcmem hm
    rw [e1, e2]
    exact h.flip c h0 hfl hm

theorem invRes_evaluateCardMatches {s : GameState} {cards : List Card} (now : Rat)
    (h : Inv s cards) : InvRes s cards (evaluateCardMatches s cards now) := by
  by_cases hslots : s.firstSelectedCardEntityId = -1 ∨ s.secondSelectedCardEntityId = -1
  · simp only [evaluateCardMatches, if_pos hslots]
    exact invRes_trivial h
  · have hf1 : s.firstSelectedCardEntityId ≠ -1 := (not_or.mp hslots).1
    have hs1 : s.secondSelectedCardEntityId ≠ -1 := (not_or.mp hslots).2
    obtain ⟨⟨i, c1⟩, hp1⟩ := findEntity_of_mem_ids (h.ref1 hf1)
    obtain ⟨⟨j, c2⟩, hp2⟩ := findEntity_of_mem_ids (h.ref2 hs1)
    simp only [evaluateCardMatches, if_neg hslots, hp1, hp2]
    refine invRes_matchStage h _ (checkForMatch_first s c1.value c2.value now)
      (checkForMatch_second s c1.value c2.value now) _ ?_
    intro p hp
    by_cases hm : (c1.value == c2.value) = true
    · rw [if_pos hm] at hp
      rcases List.mem_append.mp hp with h1 | h2
      · cases hmc : matchCard c1 with
        | none => rw [hmc] at h1; simp at h1
        | some uu =>
          rw [hmc] at h1
          obtain rfl := List.mem_singleton.mp h1
          exact matchCard_some hmc
      · cases hmc : matchCard c2 with
        | none => rw [hmc] at h2; simp at h2
        | some uu =>
          rw [hmc] at h2
          obtain rfl := List.mem_singleton.mp h2
          exact matchCard_some hmc
    · rw [if_neg hm] at hp
      simp at hp

theorem invRes_handleUnmatchedCards {s : GameState} {cards : List Card} (t : Rat)
    (h : Inv s cards) : InvRes s cards (handleUnmatchedCards s cards t) := by
  by_cases hslots : s.firstSelectedCardEntityId = -1 ∨ s.secondSelectedCardEntityId = -1
  · simp only [handleUnmatchedCards, if_pos hslots]
    exact invRes_trivial h
  · have hf1 : s.firstSelectedCardEntityId ≠ -1 := (not_or.mp hslots).1
    have hs1 : s.secondSelectedCardEntityId ≠ -1 := (not_or.mp hslots).2
    obtain ⟨⟨i, c1⟩, hp1⟩ := findEntity_of_mem_ids (h.ref1 hf1)
    obtain ⟨⟨j, c2⟩, hp2⟩ := findEntity_of_mem_ids (h.ref2 hs1)
    obtain ⟨hci1, hid1⟩ := findEntity_eq_some hp1
    obtain ⟨hci2, hid2⟩ := findEntity_eq_some hp2
    by_cases hflag : (!c1.isFlipped || !c2.isFlipped || c1.isMatched || c2.isMatched) = true
    · simp only [handleUnmatchedCards, if_neg hslots, hp1, hp2, if_pos hflag]
      exact invRes_trivial h
    · by_cases htime : t - s.lastMoveTime < NON_MATCH_FLIP_DELAY
      · simp only [handleUnmatchedCards, if_neg hslots, hp1, hp2, if_neg hflag, if_pos htime]
        exact invRes_trivial h
      · simp only [handleUnmatchedCards, if_neg hslots, hp1, hp2, if_neg hflag, if_neg htime]
        have hfl1 : c1.isFlipped = true := by
          cases hb : c1.isFlipped
          · exact absurd (by simp [hb]) hflag
          · rfl
        have hfl2 : c2.isFlipped = true := by
          cases hb : c2.isFlipped
          · exact absurd (by simp [hb]) hflag
          · rfl
        have hids := map_id_applyCardUpdates cards [(i, flipCard c1), (j, flipCard c2)]
          (by
            intro p hp
            rcases List.mem_cons.mp hp with rfl | hp2x
            · rfl
            · obtain rfl := List.mem_singleton.mp hp2x
              rfl)
        refine { nodup := ?_, nonneg := nonneg_of_same_ids h.nonneg hids,
                 slots := ?_, ref1 := ?_, ref2 := ?_, flip := ?_ }
        · show ((applyCardUpdates cards [(i, flipCard c1), (j, flipCard c2)]).map Card.id).Nodup
          rw [hids]
          exact h.nodup
        · intro hh
          exact absurd rfl hh
        · intro hh
          exact absurd rfl hh
        · intro hh
          exact absurd rfl hh
        · intro c hcmem hfl hm
          obtain ⟨n, hn⟩ := List.mem_iff_getElem?.mp hcmem
          rw [show applyCardUpdates cards [(i, flipCard c1), (j, flipCard c2)] =
            modifyCardAt (modifyCardAt cards i (flipCard c1)) j (flipCard c2) from rfl,
            modifyCardAt_getElem?] at hn
          by_cases hjn : j = n
          · rw [if_pos hjn] at hn
            obtain ⟨base, hbase, rfl⟩ := Option.map_eq_some'.mp hn
            rw [flip_isFlipped, hfl2] at hfl
            simp at hfl
          · rw [if_neg hjn, modifyCardAt_getElem?] at hn
            by_cases hin : i = n
            · rw [if_pos hin] at hn
              obtain ⟨base, hbase, rfl⟩ := Option.map_eq_some'.mp hn
              rw [flip_isFlipped, hfl1] at hfl
              simp at hfl
            · rw [if_neg hin] at hn
              have h0 : c ∈ cards := mem_of_getElem?_card hn
              rcases h.flip c h0 hfl hm with hcs | hcs
              · exact absurd (nodup_ids_getElem?_unique h.nodup hn hci1
                  (hcs.trans hid1.symm)).symm hin
              · exact absurd (nodup_ids_getElem?_unique h.nodup hn hci2
                  (hcs.trans hid2.symm)).symm hjn

theorem inv_evaluateGameState {s : GameState} {cards : List Card} (now : Rat)
    (h : Inv s cards) :
    Inv (evaluateGameState s cards now).1 (evaluateGameState s cards now).2 := by
  have hm := invRes_evaluateCardMatches now h
  rw [evaluateGameState]
  cases hsu : (evaluateCardMatches s cards now).stateUpdates with
  | none =>
    simp only [hsu]
    split
    · exact invRes_handleUnmatchedCards now h
    · exact h
  | some u =>
    have hm2 : Inv (applyUpdate s u)
        (applyCardUpdates cards (evaluateCardMatches s cards now).cardUpdates) := by
      rw [InvRes, hsu] at hm
      exact hm
    simp only [hsu]
    split
    · exact invRes_handleUnmatchedCards now hm2
    · exact hm2

theorem inv_tick {s : GameState} {cards : List Card} (b : Board)
    (events : List InputEvent) (now : Rat) (h : Inv s cards) :
    Inv (tick b s cards events now).1 (tick b s cards events now).2 :=
  inv_evaluateGameState now (inv_processInputEvents b events now (h.updateGameTimer now))

/-- Every engine-reachable state satisfies the selection invariant. -/
theorem inv_reachable {b : Board} {s : GameState} {cards : List Card}
    (h : Reachable b s cards) : Inv s cards := by
  induction h with
  | init s0 n cards hn hids hpos hflip hmatch =>
    exact Inv.initializeGame s0 n cards hids hpos hflip
  | start s cards now _ ih => exact ih.startGame now
  | pause s cards u _ hu ih => exact ih.pauseGame hu
  | resume s cards now u _ hu ih => exact ih.resumeGame hu
  | step s cards events now _ ih => exact inv_tick b events now ih

/-! ### Claim theorems -/

/-- The game state used for the C3 evidence: PLAYING phase, no selection. -/
def c3State : GameState := ⟨0, 0, 8, 0, 0, 2, -1, -1, 0, 0⟩

/-- C3 counterexample: in PLAYING phase with an empty first slot, the claim's
first-selection clause demands a non-null update setting the first slot, but
for target id -1 (equal to the empty-slot sentinel) `selectCard` returns
null, because the already-selected check compares the target against the
sentinel value stored in the slots. -/
theorem C3_counterexample :
    c3State.phase = GamePhaseValue .PLAYING ∧
    c3State.firstSelectedCardEntityId = -1 ∧
    c3State.secondSelectedCardEntityId = -1 ∧
    selectCard c3State (-1) 5 0 = none := by
  refine ⟨rfl, rfl, rfl, ?_⟩
  decide

/-- C3 (amended): in PLAYING phase, for a target id distinct from both slot
values, a first selection (empty first slot) sets only the first slot and
`lastMoveTime` and leaves `moveCount` unchanged; a second selection (first
occupied, second empty) sets the second slot and increments `moveCount` by
exactly one; and whenever the target id equals either slot value the call
returns null, so re-selecting an already-selected card changes nothing. -/
theorem C3_selection_rules (s : GameState) (cardEntityId v : Int) (now : Rat)
    (hphase : s.phase = GamePhaseValue .PLAYING) :
    (cardEntityId = s.firstSelectedCardEntityId ∨
        cardEntityId = s.secondSelectedCardEntityId →
      selectCard s cardEntityId v now = none) ∧
    (cardEntityId ≠ s.firstSelectedCardEntityId →
      cardEntityId ≠ s.secondSelectedCardEntityId →
      s.firstSelectedCardEntityId = -1 →
      selectCard s cardEntityId v now =
        some { firstSelectedCardEntityId := some cardEntityId, lastMoveTime := some now } ∧
      (applyUpdateOpt s (selectCard s cardEntityId v now)).moveCount = s.moveCount) ∧
    (cardEntityId ≠ s.firstSelectedCardEntityId →
      cardEntityId ≠ s.secondSelectedCardEntityId →
      s.firstSelectedCardEntityId ≠ -1 →
      s.secondSelectedCardEntityId = -1 →
      selectCard s cardEntityId v now =
        some { secondSelectedCardEntityId := some cardEntityId,
               moveCount := some (s.moveCount + 1), lastMoveTime := some now }) := by
  refine ⟨?_, ?_, ?_⟩
  · intro hsame
    rw [selectCard, if_neg (not_not_intro hphase), if_pos hsame]
  · intro h1 h2 hfirst
    have hsel : selectCard s cardEntityId v now =
        some { firstSelectedCardEntityId := some cardEntityId, lastMoveTime := some now } := by
      rw [selectCard, if_neg (not_not_intro hphase), if_neg (not_or.mpr ⟨h1, h2⟩),
        if_pos hfirst]
    exact ⟨hsel, by rw [hsel]; rfl⟩
  · intro h1 h2 hfirst hsecond
    rw [selectCard, if_neg (not_not_intro hphase), if_neg (not_or.mpr ⟨h1, h2⟩),
      if_neg hfirst, if_pos hsecond]

/-- C3 witness: a concrete accepted first selection. -/
theorem C3_witness :
    selectCard c3State 7 5 0 =
        some { firstSelectedCardEntityId := some 7, lastMoveTime := some 0 } ∧
      (applyUpdateOpt c3State (selectCard c3State 7 5 0)).moveCount = c3State.moveCount :=
  (C3_selection_rules c3State 7 5 0 (by decide)).2.1 (by decide) (by decide) (by decide)

/-- C5: on a matching pair, `checkForMatch` adds exactly 50 base points plus
`floor((3000 - timeSince) / 100)` exactly when `timeSince < 3000` ms and
nothing more when slower, so the score never decreases. -/
theorem C5_match_scoring (s : GameState) (v : Int) (now : Rat) :
    (applyUpdate s (checkForMatch s v v now)).score =
      (if now - s.lastMoveTime < 3000 then
        s.score + 50 + ⌊(3000 - (now - s.lastMoveTime)) / 100⌋
      else s.score + 50) ∧
    s.score ≤ (applyUpdate s (checkForMatch s v v now)).score := by
  have hsc : (checkForMatch s v v now).score =
      some (if now - s.lastMoveTime < 3000 then
        s.score + 50 + ⌊(3000 - (now - s.lastMoveTime)) / 100⌋
      else s.score + 50) := by
    simp only [checkForMatch, beq_self_eq_true, if_true]
    split <;> split <;> rfl
  have happ : (applyUpdate s (checkForMatch s v v now)).score =
      (if now - s.lastMoveTime < 3000 then
        s.score + 50 + ⌊(3000 - (now - s.lastMoveTime)) / 100⌋
      else s.score + 50) := by
    show (checkForMatch s v v now).score.getD s.score = _
    rw [hsc]
    rfl
  refine ⟨happ, ?_⟩
  rw [happ]
  split_ifs with ht
  · have h0 : (0 : Int) ≤ ⌊(3000 - (now - s.lastMoveTime)) / 100⌋ := by
      apply Int.floor_nonneg.mpr
      have hpos : (0 : Rat) < 3000 - (now - s.lastMoveTime) := by linarith
      positivity
    omega
  · omega

/-- The two final-state examples of the C8 scenario. -/
def c8Fast : GameState := ⟨20, 8, 8, 90, 0, 4, -1, -1, 0, 0⟩

/-- The slow, inefficient C8 example. -/
def c8Slow : GameState := ⟨50, 8, 8, 200, 0, 4, -1, -1, 0, 0⟩

/-- C8: `calculateFinalScore` is
`matchCount*100 + max 0 (120 - elapsedTime)*5 + max 0 (totalPairs*2*3 - moveCount)*10`,
each bonus floored at zero; the two concrete scenarios give 1230 and 800. -/
theorem C8_final_score_formula :
    (∀ s : GameState, calculateFinalScore s =
      (s.matchCount : Rat) * 100 + max 0 (120 - s.elapsedTime) * 5 +
        ((max 0 (s.totalPairs * 2 * 3 - s.moveCount) : Int) : Rat) * 10) ∧
    calculateFinalScore c8Fast = 1230 ∧ calculateFinalScore c8Slow = 800 := by
  refine ⟨fun s => ?_, ?_, ?_⟩
  · rw [calculateFinalScore]
    push_cast
    ring
  · norm_num [calculateFinalScore, c8Fast, max_def]
  · norm_num [calculateFinalScore, c8Slow, max_def]

/-- C9: `matchCard` is null exactly on already-matched cards, and applying
its result always yields the card with `isMatched` set, so marking an
already-matched card changes nothing. -/
theorem C9_matchCard_idempotent (c : Card) :
    matchCard c = (if c.isMatched = true then none else some { isMatched := some true }) ∧
    applyCardUpdateOpt c (matchCard c) = { c with isMatched := true } := by
  obtain ⟨cid, cv, cx, cy, cw, chh, cf, cm, cp⟩ := c
  cases cm <;> simp [matchCard, applyCardUpdateOpt, applyCardUpdate]

/-- C10: a non-null `selectCard` update carries only the selection slots,
`moveCount` and `lastMoveTime`; applying it never changes `matchCount`,
`score`, `totalPairs`, `elapsedTime`, `startTime` or `phase`. -/
theorem C10_selectCard_frame (s : GameState) (cardEntityId v : Int) (now : Rat)
    (u : GameStateUpdate) (h : selectCard s cardEntityId v now = some u) :
    u.matchCount = none ∧ u.score = none ∧ u.totalPairs = none ∧
    u.elapsedTime = none ∧ u.startTime = none ∧ u.phase = none ∧
    (applyUpdate s u).matchCount = s.matchCount ∧
    (applyUpdate s u).score = s.score ∧
    (applyUpdate s u).totalPairs = s.totalPairs ∧
    (applyUpdate s u).elapsedTime = s.elapsedTime ∧
    (applyUpdate s u).startTime = s.startTime ∧
    (applyUpdate s u).phase = s.phase := by
  rw [selectCard] at h
  split at h
  · exact absurd h (by simp)
  · split at h
    · exact absurd h (by simp)
    · split at h
      · obtain rfl := Option.some.inj h
        exact ⟨rfl, rfl, rfl, rfl, rfl, rfl, rfl, rfl, rfl, rfl, rfl, rfl⟩
      · split at h
        · obtain rfl := Option.some.inj h
          exact ⟨rfl, rfl, rfl, rfl, rfl, rfl, rfl, rfl, rfl, rfl, rfl, rfl⟩
        · exact absurd h (by simp)

/-- The state and update of the C10 witness. -/
def c10State : GameState := ⟨3, 1, 8, 5, 2, 2, -1, -1, 7, 100⟩

/-- The update returned for the C10 witness selection. -/
def c10Update : GameStateUpdate :=
  { firstSelectedCardEntityId := some 9, lastMoveTime := some 4 }

/-- C10 witness: the frame condition at a concrete accepted selection. -/
theorem C10_witness :
    c10Update.matchCount = none ∧ c10Update.score = none ∧ c10Update.totalPairs = none ∧
    c10Update.elapsedTime = none ∧ c10Update.startTime = none ∧ c10Update.phase = none ∧
    (applyUpdate c10State c10Update).matchCount = c10State.matchCount ∧
    (applyUpdate c10State c10Update).score = c10State.score ∧
    (applyUpdate c10State c10Update).totalPairs = c10State.totalPairs ∧
    (applyUpdate c10State c10Update).elapsedTime = c10State.elapsedTime ∧
    (applyUpdate c10State c10Update).startTime = c10State.startTime ∧
    (applyUpdate c10State c10Update).phase = c10State.phase :=
  C10_selectCard_frame c10State 9 5 4 c10Update (by decide)

/-- Modelled from the spec (section 4.2): `indexAt` with the half-open cell
box `[0, cardWidth) x [0, cardHeight)` that the spec claims decides card
versus gap. -/
def indexAtSpecHalfOpen (board : Board) (x y : Rat) : Int :=
  let cellW := board.cardWidth + board.gap
  let cellH := board.cardHeight + board.gap
  let col := ⌊x / cellW⌋
  let row := ⌊y / cellH⌋
  if col < 0 ∨ board.columns ≤ col ∨ row < 0 ∨ board.rows ≤ row then -1
  else if x - cellW * (col : Rat) < board.cardWidth ∧
      y - cellH * (row : Rat) < board.cardHeight then
    row * board.columns + col
  else -1

/-- The amended mapping: the same geometry with the closed box
`[0, cardWidth] x [0, cardHeight]`, which is what the code implements. -/
def indexAtSpecClosed (board : Board) (x y : Rat) : Int :=
  let cellW := board.cardWidth + board.gap
  let cellH := board.cardHeight + board.gap
  let col := ⌊x / cellW⌋
  let row := ⌊y / cellH⌋
  if col < 0 ∨ board.columns ≤ col ∨ row < 0 ∨ board.rows ≤ row then -1
  else if x - cellW * (col : Rat) ≤ board.cardWidth ∧
      y - cellH * (row : Rat) ≤ board.cardHeight then
    row * board.columns + col
  else -1

/-- The board of the C7 evidence: 2x2, 100x150 cards, gap 10. -/
def c7Board : Board := ⟨2, 2, 210, 310, 100, 150, 10⟩

/-- C7 counterexample: the point (100, 0) has offset exactly `cardWidth`
within its cell, so the spec's half-open box says gap (-1), but the code
(which rejects only offsets strictly greater than `cardWidth`) returns
card index 0. -/
theorem C7_counterexample :
    getCardIndexAtPosition c7Board 100 0 = 0 ∧
    indexAtSpecHalfOpen c7Board 100 0 = -1 := by
  constructor
  · norm_num [getCardIndexAtPosition, jsMod, jsTrunc, c7Board]
  · norm_num [indexAtSpecHalfOpen, c7Board]

/-- C7 (amended): for positive cell pitches, `getCardIndexAtPosition` is the
inverse grid mapping with the closed box `[0, cardWidth] x [0, cardHeight]`:
it returns the flattened index `row*columns+col` exactly when the cell is in
bounds and the offset lies in the closed box, and -1 otherwise. -/
theorem C7_index_mapping (board : Board) (x y : Rat) :
    getCardIndexAtPosition board x y = indexAtSpecClosed board x y := by
  simp only [getCardIndexAtPosition, indexAtSpecClosed]
  by_cases hb : (⌊x / (board.cardWidth + board.gap)⌋ < 0 ∨
      board.columns ≤ ⌊x / (board.cardWidth + board.gap)⌋ ∨
      ⌊y / (board.cardHeight + board.gap)⌋ < 0 ∨
      board.rows ≤ ⌊y / (board.cardHeight + board.gap)⌋)
  · rw [if_pos hb, if_pos hb]
  · rw [if_neg hb, if_neg hb]
    have hc0 : (0 : Int) ≤ ⌊x / (board.cardWidth + board.gap)⌋ :=
      not_lt.mp (fun hlt => hb (Or.inl hlt))
    have hr0 : (0 : Int) ≤ ⌊y / (board.cardHeight + board.gap)⌋ :=
      not_lt.mp (fun hlt => hb (Or.inr (Or.inr (Or.inl hlt))))
    have hx0 : (0 : Rat) ≤ x / (board.cardWidth + board.gap) := by
      have := Int.le_floor.mp hc0
      rwa [Int.cast_zero] at this
    have hy0 : (0 : Rat) ≤ y / (board.cardHeight + board.gap) := by
      have := Int.le_floor.mp hr0
      rwa [Int.cast_zero] at this
    have hjx : jsMod x (board.cardWidth + board.gap) =
        x - (board.cardWidth + board.gap) * (⌊x / (board.cardWidth + board.gap)⌋ : Rat) := by
      rw [jsMod, jsTrunc, if_pos hx0]
    have hjy : jsMod y (board.cardHeight + board.gap) =
        y - (board.cardHeight + board.gap) * (⌊y / (board.cardHeight + board.gap)⌋ : Rat) := by
      rw [jsMod, jsTrunc, if_pos hy0]
    rw [hjx, hjy]
    by_cases hg : (board.cardWidth <
        x - (board.cardWidth + board.gap) * (⌊x / (board.cardWidth + board.gap)⌋ : Rat) ∨
        board.cardHeight <
        y - (board.cardHeight + board.gap) * (⌊y / (board.cardHeight + board.gap)⌋ : Rat))
    · rw [if_pos hg, if_neg ?hng]
      case hng =>
        intro hand
        rcases hg with hg | hg
        · exact absurd hand.1 (not_le.mpr hg)
        · exact absurd hand.2 (not_le.mpr hg)
    · have hand := not_or.mp hg
      rw [if_neg hg, if_pos ⟨not_lt.mp hand.1, not_lt.mp hand.2⟩]

/-- C6 counterexample: a negative even product (rows = -2, columns = 2) is
not rejected -- the generator silently returns the empty sequence, whose
length 0 is not `rows*columns = -4`, contradicting the claim's universal
quantification over all rows and columns. -/
theorem C6_counterexample :
    generateCardValuesForBoard (fun _ => 0) (fun _ _ => 0) (-2) 2 = Except.ok [] ∧
    ((List.length ([] : List Int) : Int) ≠ (-2) * 2) := by
  refine ⟨?_, by decide⟩
  rfl

/-- C6 (amended): for nonnegative rows and columns the generator raises the
domain error exactly when `rows*columns` is odd, and otherwise returns a
sequence of length `rows*columns` in which every value in
`1..rows*columns/2` occurs exactly twice and no other value occurs,
whatever the injected random streams are. -/
theorem C6_pair_generation (draw0 : Nat → Nat) (draws : Nat → Nat → Nat)
    (rows columns : Int) (hr : 0 ≤ rows) (hc : 0 ≤ columns) :
    (rows * columns % 2 ≠ 0 →
      generateCardValuesForBoard draw0 draws rows columns =
        Except.error "Board dimensions must allow for even number of cards") ∧
    (rows * columns % 2 = 0 →
      ∃ l, generateCardValuesForBoard draw0 draws rows columns = Except.ok l ∧
        (l.length : Int) = rows * columns ∧
        ∀ v : Int, l.count v = if 1 ≤ v ∧ v ≤ rows * columns / 2 then 2 else 0) := by
  constructor
  · intro hodd
    rw [generateCardValuesForBoard, if_pos hodd]
  · intro heven
    have hnn : 0 ≤ rows * columns := mul_nonneg hr hc
    have hdiv : ((rows * columns / 2).toNat : Int) = rows * columns / 2 :=
      Int.toNat_of_nonneg (Int.ediv_nonneg hnn (by norm_num))
    refine ⟨_, by rw [generateCardValuesForBoard, if_neg (not_not_intro heven)], ?_, ?_⟩
    · rw [ensureFairDistribution, length_ensureFairAux, length_shuffle, createCardPairs,
        length_createCardPairs_range]
      push_cast [hdiv]
      omega
    · intro v
      rw [ensureFairDistribution, count_ensureFairAux, count_shuffle, createCardPairs,
        count_createCardPairs_range, hdiv]

/-- C6 witness: the even branch on a 2x2 board with the constant-zero random
streams. -/
theorem C6_witness :
    ∃ l, generateCardValuesForBoard (fun _ => 0) (fun _ _ => 0) 2 2 = Except.ok l ∧
      (l.length : Int) = 2 * 2 ∧
      ∀ v : Int, l.count v = if 1 ≤ v ∧ v ≤ 2 * 2 / 2 then 2 else 0 :=
  (C6_pair_generation (fun _ => 0) (fun _ _ => 0) 2 2 (by norm_num) (by norm_num)).2
    (by norm_num)

/-- C2: in every engine-reachable state at most two cards are face-up and
unmatched, and every face-up unmatched card is referenced by one of the two
selection slots. -/
theorem C2_at_most_two_face_up (board : Board) (s : GameState) (cards : List Card)
    (h : Reachable board s cards) :
    (cards.filter (fun c => c.isFlipped && !c.isMatched)).length ≤ 2 ∧
    ∀ c ∈ cards, c.isFlipped = true → c.isMatched = false →
      c.id = s.firstSelectedCardEntityId ∨ c.id = s.secondSelectedCardEntityId := by
  classical
  have hinv := inv_reachable h
  refine ⟨?_, hinv.flip⟩
  have hsub : ((cards.filter (fun c => c.isFlipped && !c.isMatched)).map Card.id).Sublist
      (cards.map Card.id) :=
    List.Sublist.map _ (List.filter_sublist _)
  have hnd : ((cards.filter (fun c => c.isFlipped && !c.isMatched)).map Card.id).Nodup :=
    List.Nodup.sublist hsub hinv.nodup
  have hmem : ∀ a ∈ (cards.filter (fun c => c.isFlipped && !c.isMatched)).map Card.id,
      a = s.firstSelectedCardEntityId ∨ a = s.secondSelectedCardEntityId := by
    intro a ha
    obtain ⟨c, hcf, rfl⟩ := List.mem_map.mp ha
    have h2 := List.mem_filter.mp hcf
    have hb := (Bool.and_eq_true _ _).mp h2.2
    exact hinv.flip c h2.1 hb.1 ((Bool.not_eq_true' _) ▸ hb.2)
  have hfin : ((cards.filter (fun c => c.isFlipped && !c.isMatched)).map Card.id).toFinset ⊆
      ({s.firstSelectedCardEntityId, s.secondSelectedCardEntityId} : Finset Int) := by
    intro a ha
    rcases hmem a (List.mem_toFinset.mp ha) with rfl | rfl
    · exact Finset.mem_insert_self _ _
    · exact Finset.mem_insert_of_mem (Finset.mem_singleton_self _)
  calc (cards.filter (fun c => c.isFlipped && !c.isMatched)).length
      = ((cards.filter (fun c => c.isFlipped && !c.isMatched)).map Card.id).length :=
        (List.length_map _ _).symm
    _ = ((cards.filter (fun c => c.isFlipped && !c.isMatched)).map Card.id).toFinset.card :=
        (List.toFinset_card_of_nodup hnd).symm
    _ ≤ ({s.firstSelectedCardEntityId, s.secondSelectedCardEntityId} : Finset Int).card :=
        Finset.card_le_card hfin
    _ ≤ 2 := by
        refine le_trans (Finset.card_insert_le _ _) ?_
        simp

/-- The base record of the C2 witness (all Becsy fields start at zero). -/
def w2Zero : GameState := ⟨0, 0, 0, 0, 0, 0, 0, 0, 0, 0⟩

/-- The freshly initialized one-pair state of the C2 witness. -/
def w2State : GameState := applyUpdate w2Zero (initializeGame w2Zero 1)

/-- The two face-down cards of the C2 witness. -/
def w2Cards : List Card :=
  [⟨0, 1, 50, 50, 100, 100, false, false, 0⟩, ⟨1, 1, 160, 50, 100, 100, false, false, 0⟩]

/-- The board of the C2 witness. -/
def w2Board : Board := ⟨1, 2, 210, 100, 100, 100, 10⟩

/-- C2 witness: the invariant at a concrete freshly initialized state. -/
theorem C2_witness :
    (w2Cards.filter (fun c => c.isFlipped && !c.isMatched)).length ≤ 2 ∧
    ∀ c ∈ w2Cards, c.isFlipped = true → c.isMatched = false →
      c.id = w2State.firstSelectedCardEntityId ∨
        c.id = w2State.secondSelectedCardEntityId :=
  C2_at_most_two_face_up w2Board w2State w2Cards
    (Reachable.init w2Zero 1 w2Cards (by decide) (by decide) (by decide) (by decide)
      (by decide))

/-- The board of the C1 trace: one row of two cards. -/
def c1Board : Board := ⟨1, 2, 210, 100, 100, 100, 10⟩

/-- The single pair of the C1 trace (value 1 on both cards). -/
def c1Cards : List Card :=
  [⟨0, 1, 50, 50, 100, 100, false, false, 0⟩, ⟨1, 1, 160, 50, 100, 100, false, false, 0⟩]

/-- The zero record all Becsy fields start from. -/
def c1Zero : GameState := ⟨0, 0, 0, 0, 0, 0, 0, 0, 0, 0⟩

/-- The C1 trace state after initialization and `startGame` at time 0. -/
def c1Start : GameState :=
  applyUpdate (applyUpdate c1Zero (initializeGame c1Zero 1))
    (startGame (applyUpdate c1Zero (initializeGame c1Zero 1)) 0)

/-- Direct selection of card entity 0 in the C1 trace. -/
def c1Ev0 : InputEvent := { type := .key, entityId := some 0, timestamp := 100 }

/-- Direct selection of card entity 1 in the C1 trace. -/
def c1Ev1 : InputEvent := { type := .key, entityId := some 1, timestamp := 100 }

/-- The C1 trace after the tick that selects and matches the only pair. -/
def c1AfterWin : GameState × List Card :=
  tick c1Board c1Start c1Cards [c1Ev0, c1Ev1] 100

/-- The C1 trace after one further, input-free tick in the GAME_OVER phase. -/
def c1AfterExtra : GameState × List Card :=
  tick c1Board c1AfterWin.1 c1AfterWin.2 [] 200

/-- C1 evidence (code bug): the engine reaches GAME_OVER with
`matchCount = totalPairs = 1`, yet the very next tick, with no input at all,
re-evaluates the still-selected matched pair (`evaluateCardMatches` is not
guarded by the phase and a match never clears the slots), driving
`matchCount` to 2 > `totalPairs` while the phase stays GAME_OVER -- the
claimed invariants `matchCount <= totalPairs` and
`phase = GAME_OVER iff matchCount = totalPairs` fail on this reachable
state. -/
theorem C1_matchCount_exceeds_totalPairs :
    Reachable c1Board c1AfterExtra.1 c1AfterExtra.2 ∧
    c1AfterWin.1.phase = GamePhaseValue .GAME_OVER ∧
    c1AfterWin.1.matchCount = 1 ∧
    c1AfterWin.1.totalPairs = 1 ∧
    c1AfterExtra.1.phase = GamePhaseValue .GAME_OVER ∧
    c1AfterExtra.1.totalPairs = 1 ∧
    c1AfterExtra.1.matchCount = 2 ∧
    ¬(c1AfterExtra.1.matchCount ≤ c1AfterExtra.1.totalPairs ∧
      (c1AfterExtra.1.phase = GamePhaseValue .GAME_OVER ↔
        c1AfterExtra.1.matchCount = c1AfterExtra.1.totalPairs)) := by
  have hreach : Reachable c1Board c1AfterExtra.1 c1AfterExtra.2 :=
    Reachable.step _ _ _ _ (Reachable.step _ _ _ _ (Reachable.start _ _ _
      (Reachable.init c1Zero 1 c1Cards (by decide) (by decide) (by decide) (by decide)
        (by decide))))
  refine ⟨hreach, ?_, ?_, ?_, ?_, ?_, ?_, ?_⟩ <;>
    norm_num [c1AfterExtra, c1AfterWin, c1Start, c1Zero, c1Board, c1Cards, c1Ev0, c1Ev1,
      tick, applyUpdateOpt, applyUpdate, updateGameTimer, processInputEvents,
      processGameInput, processKeyEvent, findEntity, selectCard, applyCardUpdates,
      modifyCardAt, flipCard, evaluateGameState, evaluateCardMatches, checkForMatch,
      matchCard, resetSelection, handleUnmatchedCards, applyCardUpdate, GamePhaseValue,
      NON_MATCH_FLIP_DELAY, initializeGame, startGame]

/-- C4: with both slots populated and both referenced cards face-up and
unmatched, `handleUnmatchedCards` does nothing strictly before 1000 ms have
elapsed since `lastMoveTime`, and from 1000 ms on flips both cards face-down
(`isFlipped` false, `flipProgress` reset to the flip-down start value 1) and
clears both selection slots to -1. -/
theorem C4_unmatched_timeout (s : GameState) (cards : List Card) (t : Rat)
    (i j : Nat) (c1 c2 : Card)
    (h1 : s.firstSelectedCardEntityId ≠ -1)
    (h2 : s.secondSelectedCardEntityId ≠ -1)
    (hf : findEntity cards s.firstSelectedCardEntityId = some (i, c1))
    (hs : findEntity cards s.secondSelectedCardEntityId = some (j, c2))
    (hc1f : c1.isFlipped = true) (hc2f : c2.isFlipped = true)
    (hc1m : c1.isMatched = false) (hc2m : c2.isMatched = false) :
    (t - s.lastMoveTime < 1000 →
      handleUnmatchedCards s cards t = ⟨none, []⟩) ∧
    (1000 ≤ t - s.lastMoveTime →
      handleUnmatchedCards s cards t =
        ⟨some (resetSelection s t), [(i, flipCard c1), (j, flipCard c2)]⟩ ∧
      flipCard c1 = { isFlipped := some false, flipProgress := some 1 } ∧
      flipCard c2 = { isFlipped := some false, flipProgress := some 1 } ∧
      (applyUpdate s (resetSelection s t)).firstSelectedCardEntityId = -1 ∧
      (applyUpdate s (resetSelection s t)).secondSelectedCardEntityId = -1) := by
  have hslots : ¬(s.firstSelectedCardEntityId = -1 ∨ s.secondSelectedCardEntityId = -1) :=
    not_or.mpr ⟨h1, h2⟩
  have hflag : ¬((!c1.isFlipped || !c2.isFlipped || c1.isMatched || c2.isMatched) = true) := by
    simp [hc1f, hc2f, hc1m, hc2m]
  constructor
  · intro ht
    simp only [handleUnmatchedCards, if_neg hslots, hf, hs, if_neg hflag,
      NON_MATCH_FLIP_DELAY, if_pos ht]
  · intro ht
    have hnl : ¬(t - s.lastMoveTime < NON_MATCH_FLIP_DELAY) := by
      rw [NON_MATCH_FLIP_DELAY]
      exact not_lt.mpr ht
    refine ⟨?_, ?_, ?_, rfl, rfl⟩
    · simp only [handleUnmatchedCards, if_neg hslots, hf, hs, if_neg hflag, if_neg hnl]
    · simp [flipCard, hc1f]
    · simp [flipCard, hc2f]

/-- The state of the C4 witness: slots 0 and 1, last move at 1000 ms. -/
def w4State : GameState := ⟨1, 0, 1, 0, 0, 2, 0, 1, 1000, 0⟩

/-- The first face-up unmatched card of the C4 witness. -/
def w4c1 : Card := ⟨0, 1, 50, 50, 100, 100, true, false, 1⟩

/-- The second face-up unmatched card of the C4 witness. -/
def w4c2 : Card := ⟨1, 2, 160, 50, 100, 100, true, false, 1⟩

/-- The card list of the C4 witness. -/
def w4Cards : List Card := [w4c1, w4c2]

/-- C4 witness: at `lastMoveTime + 999` ms the timeout does not fire. -/
theorem C4_witness : handleUnmatchedCards w4State w4Cards 1999 = ⟨none, []⟩ :=
  (C4_unmatched_timeout w4State w4Cards 1999 0 1 w4c1 w4c2 (by decide) (by decide)
    (by decide) (by decide) (by decide) (by decide) (by decide) (by decide)).1
    (by norm_num [w4State])

end MemoGame
